import Mathlib

/-!
Verification development for the veridian language server's diagnostics
pipeline (src/diagnostics.rs) and the tool-enablement resolution performed
during server startup (src/server.rs).

The external-process plumbing (spawning, stdin feeding, UTF-8 decoding) is
abstracted: each tool function takes the process exit status as a `Bool`
(`status_success`) and the captured output stream as a `List Char`, exactly
the data the Rust code branches on after `wait_with_output`.  Machine
integers (`u32`) are modelled as `Nat` with explicit `% 2^32` where wrapping
matters.  The two regular expressions are embedded as deterministic matchers
implementing the regex crate's leftmost-first match semantics for those
specific patterns.
-/

namespace Veridian

/-- LSP `DiagnosticSeverity` (tower_lsp::lsp_types). -/
inductive DiagnosticSeverity
  | ERROR
  | WARNING
  | INFORMATION
  | HINT
deriving DecidableEq

/-- LSP `Position`: zero-based line and character, `u32` in the protocol. -/
structure Position where
  line : Nat
  character : Nat
deriving DecidableEq

/-- LSP `Range`.  The second field is named `end` in lsp_types; renamed to
`stop` because `end` is reserved in Lean. -/
structure Range where
  start : Position
  stop : Position
deriving DecidableEq

/-- LSP `Diagnostic`, restricted to the fields this code ever sets to a
non-`None` value (`code`, `code_description`, `related_information`, `tags`
and `data` are always `None` in diagnostics.rs and are omitted). -/
structure Diagnostic where
  range : Range
  severity : Option DiagnosticSeverity
  source : Option String
  message : String
deriving DecidableEq

/-- Wrapping `u32` subtraction of one, as performed by `line - 1` /
`col - 1` on `u32` values in diagnostics.rs (release-mode semantics;
a debug build would panic on underflow instead of wrapping). -/
def u32sub1 (n : Nat) : Nat := (n + 4294967295) % 4294967296

/-- Digit string to number, most significant digit first. -/
def digitsToNat (l : List Char) : Nat :=
  l.foldl (fun a c => a * 10 + (c.toNat - 48)) 0

/-- Rust `str::parse::<u32>()` restricted to the capture strings produced by
the patterns below (runs of ASCII digits, possibly empty): the empty string
fails, and a value of `2^32` or more overflows and fails. -/
def parseU32 (s : List Char) : Option Nat :=
  if s.isEmpty then none
  else if s.all Char.isDigit then
    if digitsToNat s < 4294967296 then some (digitsToNat s) else none
  else none

/-- Rust `str::lines` splitting, helper: plain split on `'\n'`. -/
def splitOnNl : List Char → List (List Char)
  | [] => [[]]
  | '\n' :: r => [] :: splitOnNl r
  | c :: r =>
    match splitOnNl r with
    | h :: t => (c :: h) :: t
    | [] => [[c]]

/-- Strip one trailing carriage return, as `str::lines` does for a line
terminated by `"\r\n"`. -/
def stripCR (l : List Char) : List Char :=
  match l.getLast? with
  | some '\r' => l.dropLast
  | _ => l

/-- Rust `str::lines` collected into a list: split on `'\n'`; each
`'\n'`-terminated line is stripped of one trailing `'\r'` (a final
unterminated line keeps any trailing `'\r'`); a final `'\n'` does not
produce a trailing empty line. -/
def rustLines (s : List Char) : List (List Char) :=
  match s with
  | [] => []
  | _ =>
    let parts := splitOnNl s
    let init := parts.dropLast.map stripCR
    match parts.getLast? with
    | some last => if last.isEmpty then init else init ++ [last]
    | none => []

/-- `line.starts_with('%')` from verilator output filtering. -/
def startsWithPercent (l : List Char) : Bool :=
  match l with
  | '%' :: _ => true
  | _ => false

/-- Consume an exact literal; returns the remainder on success. -/
def takeLit : List Char → List Char → Option (List Char)
  | [], l => some l
  | _ :: _, [] => none
  | p :: ps, c :: cs => if p = c then takeLit ps cs else none

/-- Character class `[A-Z0-9_]` of the verilator warning-code group. -/
def codeChar (c : Char) : Bool := c.isUpper || c.isDigit || c == '_'

/-- Captures of the verilator output pattern
`%(?P<severity>Error|Warning)(-(?P<warning_type>[A-Z0-9_]+))?: (?P<filepath>[^:]+):(?P<line>\d+):((?P<col>\d+):)? ?(?P<message>.*)`. -/
structure VerilatorCaps where
  severity : List Char
  warning_type : Option (List Char)
  filepath : List Char
  line : List Char
  col : Option (List Char)
  message : List Char
deriving DecidableEq

/-- Matcher for the part of the verilator pattern after `: ` that follows
the severity (and optional warning code): greedy `[^:]+` up to the first
colon, `\d+` line, optional `(\d+:)` column group, optional space, and the
rest of the line as the message.  All the greedy choices here are forced
(shortening any of them puts a non-matching character in front of the next
literal), so the backtracking regex semantics collapse to this
deterministic parse.  The regex crate's Unicode `\d` is rendered as ASCII
`Char.isDigit`, diverging only on non-ASCII decimal digits in tool output
(which `str::parse::<u32>` would reject in any case). -/
def verilatorAfterSevColon (sev : List Char) (wt : Option (List Char))
    (r : List Char) : Option VerilatorCaps :=
  let fpSplit := r.span (fun c => c != ':')
  if fpSplit.1.isEmpty then none
  else
    match fpSplit.2 with
    | ':' :: r2 =>
      let lineSplit := r2.span Char.isDigit
      if lineSplit.1.isEmpty then none
      else
        match lineSplit.2 with
        | ':' :: r4 =>
          let colSplit := r4.span Char.isDigit
          let colRes : Option (List Char) × List Char :=
            match colSplit.2 with
            | ':' :: r5 => if colSplit.1.isEmpty then (none, r4) else (some colSplit.1, r5)
            | _ => (none, r4)
          let r7 :=
            match colRes.2 with
            | ' ' :: t => t
            | r6 => r6
          some ⟨sev, wt, fpSplit.1, lineSplit.1, colRes.1, r7⟩
        | _ => none
    | _ => none

/-- Matcher for the optional `(-(?P<warning_type>[A-Z0-9_]+))?` group plus
the literal `: ` after the severity word.  If a `-` is present but the code
run is empty, or `: ` does not follow, no backtracking alternative can
succeed (the group-skipping alternative immediately meets the `-`). -/
def verilatorAfterSev (sev : List Char) (r : List Char) : Option VerilatorCaps :=
  match r with
  | '-' :: r2 =>
    let codeSplit := r2.span codeChar
    if codeSplit.1.isEmpty then none
    else
      match takeLit [':', ' '] codeSplit.2 with
      | some r4 => verilatorAfterSevColon sev (some codeSplit.1) r4
      | none => none
  | _ =>
    match takeLit [':', ' '] r with
    | some r4 => verilatorAfterSevColon sev none r4
    | none => none

/-- Attempt the verilator pattern anchored at the head of `l`. -/
def verilatorMatchAt (l : List Char) : Option VerilatorCaps :=
  match l with
  | '%' :: r =>
    (match takeLit "Error".data r with
     | some r1 => verilatorAfterSev "Error".data r1
     | none =>
       match takeLit "Warning".data r with
       | some r1 => verilatorAfterSev "Warning".data r1
       | none => none)
  | _ => none

/-- `Regex::captures` for the (unanchored) verilator pattern: the leftmost
start position at which the pattern matches wins. -/
def verilatorCaptures : List Char → Option VerilatorCaps
  | [] => none
  | c :: r =>
    match verilatorMatchAt (c :: r) with
    | some caps => some caps
    | none => verilatorCaptures r

/-- `\s` of the regex crate: the Unicode `White_Space` property
(U+0009..U+000D, space, NEL, NBSP, U+1680, U+2000..U+200A, line and
paragraph separators, U+202F, U+205F, U+3000). -/
def isWs (c : Char) : Bool :=
  let n := c.toNat
  n == 9 || n == 10 || n == 11 || n == 12 || n == 13 || n == 32 ||
    n == 133 || n == 160 || n == 5760 || decide (8192 ≤ n ∧ n ≤ 8202) ||
    n == 8232 || n == 8233 || n == 8239 || n == 8287 || n == 12288

/-- Captures of the verible output pattern
`^.+:(?P<line>\d*):(?P<startcol>\d*)(?:-(?P<endcol>\d*))?:\s(?P<message>.*)\s.*$`
(used identically by `verible_syntax` and `verible_lint`). -/
structure VeribleCaps where
  line : List Char
  startcol : List Char
  endcol : Option (List Char)
  message : List Char
deriving DecidableEq

/-- Split a suffix at its last whitespace character: the greedy
`(?P<message>.*)\s.*$` tail of the verible pattern makes the message
everything before the last whitespace.  `none` when no whitespace occurs
(the split under consideration then fails). -/
def splitLastWs : List Char → Option (List Char × List Char)
  | [] => none
  | c :: r =>
    match splitLastWs r with
    | some (m, t) => some (c :: m, t)
    | none => if isWs c then some ([], r) else none

/-- Matcher for `\s(?P<message>.*)\s.*$` after the final colon. -/
def veribleMsg (lineD scD : List Char) (ec : Option (List Char))
    (r : List Char) : Option VeribleCaps :=
  match r with
  | [] => none
  | c :: rest =>
    if isWs c then
      match splitLastWs rest with
      | some (msg, _) => some ⟨lineD, scD, ec, msg⟩
      | none => none
    else none

/-- Matcher for the verible pattern after the `.+:` head: `\d*` line,
colon, `\d*` start column, optional `-\d*` end column, colon, then the
message tail.  As with the verilator pattern, every greedy digit run here
is forced, so the parse is deterministic for a fixed head split; `\d` is
again rendered as ASCII `Char.isDigit`, diverging only on non-ASCII
decimal digits. -/
def veribleTail (r : List Char) : Option VeribleCaps :=
  let lineSplit := r.span Char.isDigit
  match lineSplit.2 with
  | ':' :: r2 =>
    let scSplit := r2.span Char.isDigit
    match scSplit.2 with
    | '-' :: r4 =>
      let ecSplit := r4.span Char.isDigit
      match ecSplit.2 with
      | ':' :: r6 => veribleMsg lineSplit.1 scSplit.1 (some ecSplit.1) r6
      | _ => none
    | ':' :: r4 => veribleMsg lineSplit.1 scSplit.1 none r4
    | _ => none
  | _ => none

/-- Enumerate, left to right, every candidate produced by splitting at a
colon preceded by at least one character (the `^.+:` head; the flag records
whether a character has been consumed).  A newline terminates the scan
because `.` cannot match it. -/
def veribleGo : Bool → List Char → List VeribleCaps
  | _, [] => []
  | consumed, c :: r =>
    (if consumed && c == ':' then (veribleTail r).toList else []) ++
      (if c == '\n' then [] else veribleGo true r)

/-- Full match of the (anchored) verible pattern against one line.  The
greedy `^.+` tries the longest head first, i.e. the rightmost viable colon
split wins — the last of the left-to-right candidates. -/
def veribleMatchLine (l : List Char) : Option VeribleCaps :=
  (veribleGo false l).getLast?

/-- diagnostics.rs `verilator_severity`: convert the captured severity
string to a `DiagnosticSeverity` ("Error" to error, a string starting with
"Warning" to warning, anything else to information). -/
def verilator_severity (s : List Char) : Option DiagnosticSeverity :=
  if s = "Error".data then some DiagnosticSeverity.ERROR
  else if "Warning".data.isPrefixOf s then some DiagnosticSeverity.WARNING
  else some DiagnosticSeverity.INFORMATION

/-- The `msg` computation of `verilator_syntax`: for error severity the raw
message, for warning severity `"{warning_type}: {message}"` where the
absent warning-code capture makes `caps.name("warning_type")?` abort the
whole run (`none` here), and the empty string otherwise. -/
def verilatorMsgOf (severity : Option DiagnosticSeverity)
    (caps : VerilatorCaps) : Option String :=
  match severity with
  | some DiagnosticSeverity.ERROR => some ⟨caps.message⟩
  | some DiagnosticSeverity.WARNING =>
    (match caps.warning_type with
     | some wt => some ((⟨wt⟩ : String) ++ ": " ++ ⟨caps.message⟩)
     | none => none)
  | _ => some ""

/-- One iteration of the `for error in filtered_output` loop of
`verilator_syntax`: `none` encodes the `?`-induced early return of the
whole run, `some none` encodes `continue` (line skipped), and
`some (some d)` encodes pushing diagnostic `d`. -/
def verilatorLineResult (file_path l : List Char) : Option (Option Diagnostic) :=
  match verilatorCaptures l with
  | none => some none
  | some caps =>
    if caps.filepath ≠ file_path then some none
    else
      let severity := verilator_severity caps.severity
      match parseU32 caps.line with
      | none => none
      | some line =>
        match parseU32 (caps.col.getD ['1']) with
        | none => none
        | some col =>
          let pos : Position := ⟨u32sub1 line, u32sub1 col⟩
          match verilatorMsgOf severity caps with
          | none => none
          | some msg => some (some ⟨⟨pos, pos⟩, severity, some "verilator", msg⟩)

/-- The extraction loop of `verilator_syntax` over the `%`-filtered lines:
an abort on any line discards the entire run (the accumulated vector is
dropped with the early `return`/`?`). -/
def verilator_extract (file_path : List Char) : List (List Char) → Option (List Diagnostic)
  | [] => some []
  | l :: ls =>
    match verilatorLineResult file_path l with
    | none => none
    | some none => verilator_extract file_path ls
    | some (some d) => (verilator_extract file_path ls).map (fun ds => d :: ds)

/-- diagnostics.rs `verilator_syntax`, with the subprocess abstracted to
its exit status and captured stderr; on a success exit status the function
returns `None` without looking at the output. -/
def verilator_syntax (file_path : List Char) (status_success : Bool)
    (raw_stderr : List Char) : Option (List Diagnostic) :=
  if !status_success then
    verilator_extract file_path ((rustLines raw_stderr).filter startsWithPercent)
  else none

/-- The three-way `match` on the optional end-column capture in the verible
loops: absent capture proceeds with `None`, a present but unparsable
capture aborts the run. -/
def veribleEndcolResult (caps : VeribleCaps) : Option (Option Nat) :=
  match caps.endcol with
  | none => some none
  | some ec =>
    match parseU32 ec with
    | some e => some (some e)
    | none => none

/-- One iteration of the line loop shared verbatim by `verible_syntax` and
`verible_lint`: `none` encodes the `?`/`return None` abort of the whole
run (there is no skip path: `re.captures(error)?` makes a non-matching
line fatal). -/
def veribleLineResult (l : List Char) : Option Diagnostic :=
  match veribleMatchLine l with
  | none => none
  | some caps =>
    match parseU32 caps.line with
    | none => none
    | some line =>
      match parseU32 caps.startcol with
      | none => none
      | some startcol =>
        match veribleEndcolResult caps with
        | none => none
        | some endcol =>
          let start_pos : Position := ⟨u32sub1 line, u32sub1 startcol⟩
          let end_pos : Position := ⟨u32sub1 line, u32sub1 (endcol.getD startcol)⟩
          some ⟨⟨start_pos, end_pos⟩, some DiagnosticSeverity.ERROR, some "verible",
            ⟨caps.message⟩⟩

/-- The extraction loop shared by `verible_syntax` and `verible_lint`. -/
def verible_extract : List (List Char) → Option (List Diagnostic)
  | [] => some []
  | l :: ls =>
    match veribleLineResult l with
    | none => none
    | some d => (verible_extract ls).map (fun ds => d :: ds)

/-- diagnostics.rs `verible_syntax`: parses captured stdout, only when the
exit status indicates failure. -/
def verible_syntax (status_success : Bool) (raw_stdout : List Char) :
    Option (List Diagnostic) :=
  if !status_success then verible_extract (rustLines raw_stdout) else none

/-- diagnostics.rs `verible_lint`: parses captured stderr, only when the
exit status indicates failure; the file path is passed to the subprocess
but never consulted during extraction. -/
def verible_lint (_file_path : List Char) (status_success : Bool)
    (raw_stderr : List Char) : Option (List Diagnostic) :=
  if !status_success then verible_extract (rustLines raw_stderr) else none

/-- Per-tool section of the configuration (enablement flag, executable
path, extra arguments). -/
structure DiagToolConf where
  enabled : Bool
  path : String
  args : List String
deriving DecidableEq

/-- The three tool sections `get_diagnostics` reads from the configuration
(addressed in diagnostics.rs as `conf.verilator.syntax`,
`conf.verible.syntax` and `conf.verible.lint`). -/
structure DiagProjectConfig where
  verilatorSyn : DiagToolConf
  veribleSyn : DiagToolConf
  veribleLint : DiagToolConf
deriving DecidableEq

/-- The verilator term of the `diagnostics` vector built by
`get_diagnostics`: runs only when enabled and when the URI converts to a
file path, and `unwrap_or_default()` turns a `None` run into no
diagnostics. -/
def verilatorContribution (conf : DiagProjectConfig) (path : Option (List Char))
    (s : Bool) (out : List Char) : List Diagnostic :=
  if conf.verilatorSyn.enabled then
    match path with
    | some p =>
      let r := verilator_syntax p s out
      r.getD []
    | none => []
  else []

/-- The verible-syntax term of the `diagnostics` vector built by
`get_diagnostics`. -/
def veribleSyntaxContribution (conf : DiagProjectConfig) (s : Bool)
    (out : List Char) : List Diagnostic :=
  if conf.veribleSyn.enabled then
    let r := verible_syntax s out
    r.getD []
  else []

/-- The verible-lint term of the `diagnostics` vector built by
`get_diagnostics`. -/
def veribleLintContribution (conf : DiagProjectConfig) (path : Option (List Char))
    (s : Bool) (out : List Char) : List Diagnostic :=
  if conf.veribleLint.enabled then
    match path with
    | some p =>
      let r := verible_lint p s out
      r.getD []
    | none => []
  else []

/-- LSP `PublishDiagnosticsParams` restricted to the fields set by
`get_diagnostics` (`version` is always `None`). -/
structure PublishDiagnosticsParams where
  uri : String
  diagnostics : List Diagnostic
  version : Option Nat
deriving DecidableEq

/-- diagnostics.rs `get_diagnostics`, with each tool's subprocess outcome
supplied as an exit-status flag and an output stream and the
`uri.to_file_path()` conversion as an `Option`; the `cfg!(test)` branch is
inactive outside test builds and is omitted. -/
def get_diagnostics (uri : String) (path : Option (List Char))
    (conf : DiagProjectConfig) (s1 : Bool) (o1 : List Char) (s2 : Bool)
    (o2 : List Char) (s3 : Bool) (o3 : List Char) : PublishDiagnosticsParams :=
  ⟨uri,
    verilatorContribution conf path s1 o1 ++
      veribleSyntaxContribution conf s2 o2 ++
        veribleLintContribution conf path s3 o3,
    none⟩

/-- Per-tool section of `ProjectConfig` as declared in src/server.rs. -/
structure ServerToolConf where
  enabled : Bool
  path : String
  args : List String
deriving DecidableEq

/-- `ProjectConfig` from src/server.rs, restricted to the tool sections
(`log_level` and `project_path` play no role in enablement). -/
structure ProjectConfig where
  verible_lint : ServerToolConf
  verilator : ServerToolConf
deriving DecidableEq

/-- The enablement resolution performed by `LanguageServer::initialize` in
src/server.rs: each tool's flag becomes
`enabled && which(path).is_ok()`, with the executable locator `which`
abstracted as the predicate `located`. -/
def resolveToolEnablement (located : String → Bool) (conf : ProjectConfig) :
    ProjectConfig :=
  { conf with
    verible_lint := { conf.verible_lint with
      enabled := conf.verible_lint.enabled && located conf.verible_lint.path }
    verilator := { conf.verilator with
      enabled := conf.verilator.enabled && located conf.verilator.path } }

/-- A verilator output line is kept by the per-file filter when it either
fails to match the pattern (it is then skipped for a different reason) or
matches with a file-path capture equal to the checked file's path. -/
def verilatorKeepLine (file_path l : List Char) : Bool :=
  match verilatorCaptures l with
  | none => true
  | some caps => caps.filepath == file_path

/-! ### Helper lemmas -/

theorem parseU32_lt {s : List Char} {v : Nat} (h : parseU32 s = some v) :
    v < 4294967296 := by
  unfold parseU32 at h
  split at h
  · exact absurd h (by simp)
  · split at h
    · split at h
      · cases h; assumption
      · exact absurd h (by simp)
    · exact absurd h (by simp)

theorem u32sub1_eq {n : Nat} (h1 : 1 ≤ n) (h2 : n < 4294967296) :
    u32sub1 n = n - 1 := by
  unfold u32sub1
  have key : n + 4294967295 = (n - 1) + 1 * 4294967296 := by omega
  rw [key, Nat.add_mul_mod_self_right, Nat.mod_eq_of_lt (by omega)]

theorem verilator_extract_append_none {fp : List Char}
    {tail : List (List Char)} (h : verilator_extract fp tail = none)
    (pre : List (List Char)) : verilator_extract fp (pre ++ tail) = none := by
  induction pre with
  | nil => simpa using h
  | cons l pre ih =>
    show verilator_extract fp (l :: (pre ++ tail)) = none
    unfold verilator_extract
    cases hl : verilatorLineResult fp l with
    | none => rfl
    | some o =>
      cases o with
      | none => exact ih
      | some d => rw [ih]; rfl

theorem verible_extract_append_none {tail : List (List Char)}
    (h : verible_extract tail = none) (pre : List (List Char)) :
    verible_extract (pre ++ tail) = none := by
  induction pre with
  | nil => simpa using h
  | cons l pre ih =>
    show verible_extract (l :: (pre ++ tail)) = none
    unfold verible_extract
    cases hl : veribleLineResult l with
    | none => rfl
    | some d => rw [ih]; rfl

theorem verilatorLineResult_zero_width {fp l : List Char} {d : Diagnostic}
    (h : verilatorLineResult fp l = some (some d)) :
    d.range.start = d.range.stop := by
  unfold verilatorLineResult at h
  split at h
  · exact absurd h (by simp)
  · split at h
    · exact absurd h (by simp)
    · split at h
      · exact absurd h (by simp)
      · split at h
        · exact absurd h (by simp)
        · dsimp only at h
          split at h
          · exact absurd h (by simp)
          · simp only [Option.some.injEq] at h
            subst h
            rfl

theorem veribleLineResult_severity {l : List Char} {d : Diagnostic}
    (h : veribleLineResult l = some d) :
    d.severity = some DiagnosticSeverity.ERROR := by
  unfold veribleLineResult at h
  split at h
  · exact absurd h (by simp)
  · split at h
    · exact absurd h (by simp)
    · split at h
      · exact absurd h (by simp)
      · split at h
        · exact absurd h (by simp)
        · simp only [Option.some.injEq] at h
          subst h
          rfl

theorem verilator_extract_mem {fp : List Char} {ls : List (List Char)}
    {ds : List Diagnostic} (h : verilator_extract fp ls = some ds) :
    ∀ d ∈ ds, d.range.start = d.range.stop := by
  induction ls generalizing ds with
  | nil =>
    unfold verilator_extract at h
    cases h
    intro d hd
    cases hd
  | cons l ls ih =>
    unfold verilator_extract at h
    cases hl : verilatorLineResult fp l with
    | none => rw [hl] at h; cases h
    | some o =>
      rw [hl] at h
      cases o with
      | none => exact ih h
      | some d0 =>
        cases hr : verilator_extract fp ls with
        | none => rw [hr] at h; cases h
        | some ds' =>
          rw [hr] at h
          simp only [Option.map_some', Option.some.injEq] at h
          subst h
          intro d hd
          rcases List.mem_cons.mp hd with h1 | h2
          · subst h1
            exact verilatorLineResult_zero_width hl
          · exact ih hr d h2

theorem verible_extract_mem {ls : List (List Char)} {ds : List Diagnostic}
    (h : verible_extract ls = some ds) :
    ∀ d ∈ ds, d.severity = some DiagnosticSeverity.ERROR := by
  induction ls generalizing ds with
  | nil =>
    unfold verible_extract at h
    cases h
    intro d hd
    cases hd
  | cons l ls ih =>
    unfold verible_extract at h
    cases hl : veribleLineResult l with
    | none => rw [hl] at h; cases h
    | some d0 =>
      rw [hl] at h
      cases hr : verible_extract ls with
      | none => rw [hr] at h; cases h
      | some ds' =>
        rw [hr] at h
        simp only [Option.map_some', Option.some.injEq] at h
        subst h
        intro d hd
        rcases List.mem_cons.mp hd with h1 | h2
        · subst h1
          exact veribleLineResult_severity hl
        · exact ih hr d h2

theorem veribleEndcolResult_lt {caps : VeribleCaps} {e : Nat}
    (h : veribleEndcolResult caps = some (some e)) : e < 4294967296 := by
  unfold veribleEndcolResult at h
  cases hec : caps.endcol with
  | none => simp [hec] at h
  | some ec =>
    simp only [hec] at h
    cases hp : parseU32 ec with
    | none => simp [hp] at h
    | some v =>
      simp only [hp, Option.some.injEq] at h
      subst h
      exact parseU32_lt hp

/-! ### Claims -/

/-- C1 counterexample: the claim says a non-matching output line is ignored
for every checker-tool run, but for a verible run the non-matching line
"junk" aborts extraction (`re.captures(error)?`), so the run yields no
diagnostics even though the other line of the same run would have produced
one on its own. -/
theorem claim_c1_counterexample :
    verible_syntax false "junk\nf.sv:3:2: msg x\n".data = none ∧
    verible_syntax false "f.sv:3:2: msg x\n".data =
      some [⟨⟨⟨2, 1⟩, ⟨2, 1⟩⟩, some DiagnosticSeverity.ERROR, some "verible", "msg"⟩] :=
  ⟨by decide, by decide⟩

/-- C1 (amended): for verilator runs, output lines that do not match the
pattern are skipped and never suppress diagnostics extracted from other
lines of the run; for verible runs (verible_syntax and verible_lint), a
line that does not match the pattern aborts extraction and the run yields
no diagnostics at all. -/
theorem claim_c1_amended :
    (∀ (fp l : List Char) (pre post : List (List Char)),
      verilatorCaptures l = none →
      verilator_extract fp (pre ++ l :: post) = verilator_extract fp (pre ++ post)) ∧
    (∀ (l : List Char) (pre post : List (List Char)),
      veribleMatchLine l = none →
      verible_extract (pre ++ l :: post) = none) := by
  constructor
  · intro fp l pre post h
    have hskip : verilatorLineResult fp l = some none := by
      unfold verilatorLineResult
      rw [h]
    induction pre with
    | nil =>
      show verilator_extract fp (l :: post) = verilator_extract fp post
      conv_lhs => unfold verilator_extract
      rw [hskip]
    | cons l' pre ih =>
      show verilator_extract fp (l' :: (pre ++ l :: post)) =
        verilator_extract fp (l' :: (pre ++ post))
      unfold verilator_extract
      cases hl : verilatorLineResult fp l' with
      | none => rfl
      | some o =>
        cases o with
        | none => exact ih
        | some d => rw [ih]
  · intro l pre post h
    have habort : verible_extract (l :: post) = none := by
      unfold verible_extract
      have h2 : veribleLineResult l = none := by
        unfold veribleLineResult
        rw [h]
      rw [h2]
    exact verible_extract_append_none habort pre

/-- Witness for C1 (amended) at concrete runs: the non-matching line
"junk" is dropped from a verilator run and aborts a verible run. -/
theorem claim_c1_witness :
    verilator_extract "f.sv".data ["junk".data] = verilator_extract "f.sv".data [] ∧
    verible_extract ["junk".data] = none :=
  ⟨claim_c1_amended.1 "f.sv".data "junk".data [] [] (by decide),
   claim_c1_amended.2 "junk".data [] [] (by decide)⟩

/-- C2: a success exit status makes every tool function return `None`
without parsing any output, the corresponding contribution to the published
diagnostics is empty, and therefore two successive runs on unchanged
content with success status both contribute the empty list. -/
theorem claim_c2 (fp out1 out2 out3 : List Char) (uri : String)
    (path : Option (List Char)) (conf : DiagProjectConfig) :
    verilator_syntax fp true out1 = none ∧
    verible_syntax true out2 = none ∧
    verible_lint fp true out3 = none ∧
    (get_diagnostics uri path conf true out1 true out2 true out3).diagnostics = [] := by
  refine ⟨rfl, rfl, rfl, ?_⟩
  unfold get_diagnostics verilatorContribution veribleSyntaxContribution
    veribleLintContribution verilator_syntax verible_syntax verible_lint
  cases path <;> simp

/-- C3 counterexample: the claim says ANY captured line with an unparsable
numeric field aborts the run, but for verilator the per-file filter's
`continue` runs before the numeric parses: a shape-matching line whose
line numeral overflows `u32` but whose captured file path differs from the
checked file is merely skipped, and the run still returns the other line's
diagnostic instead of aborting. -/
theorem claim_c3_counterexample :
    verilatorCaptures "%Error: g.sv:4294967296:1: bad".data =
      some ⟨"Error".data, none, "g.sv".data, "4294967296".data, some "1".data,
        "bad".data⟩ ∧
    parseU32 "4294967296".data = none ∧
    verilator_syntax "f.sv".data false
        "%Error: g.sv:4294967296:1: bad\n%Error: f.sv:2:3: boom\n".data =
      some [⟨⟨⟨1, 2⟩, ⟨1, 2⟩⟩, some DiagnosticSeverity.ERROR,
        some "verilator", "boom"⟩] := by
  decide

/-- C3 (amended): a captured line that matches the overall shape but whose
numeric field fails `u32` parsing (overflowing line or column for
verilator; empty or overflowing line, start column, or present end column
for verible) aborts the tool's entire run, yielding no diagnostics at all
rather than a partial list, wherever the malformed line sits in the
output — provided, for verilator, the line's captured file path equals the
checked file's path (a malformed matched line reported against a different
file is skipped by the per-file filter before the numeric parses); verible
has no path filter, so any such line aborts its run. -/
theorem claim_c3 :
    (∀ (fp l : List Char) (caps : VerilatorCaps) (pre post : List (List Char)),
      verilatorCaptures l = some caps → caps.filepath = fp →
      (parseU32 caps.line = none ∨ parseU32 (caps.col.getD ['1']) = none) →
      verilator_extract fp (pre ++ l :: post) = none) ∧
    (∀ (l : List Char) (caps : VeribleCaps) (pre post : List (List Char)),
      veribleMatchLine l = some caps →
      (parseU32 caps.line = none ∨ parseU32 caps.startcol = none ∨
        (∃ ec, caps.endcol = some ec ∧ parseU32 ec = none)) →
      verible_extract (pre ++ l :: post) = none) := by
  constructor
  · intro fp l caps pre post hcaps hfp hnum
    have hnone : verilatorLineResult fp l = none := by
      unfold verilatorLineResult
      rw [hcaps]
      rcases hnum with h | h
      · simp [hfp, h]
      · cases hl : parseU32 caps.line with
        | none => simp [hfp, hl]
        | some v => simp [hfp, hl, h]
    have habort : verilator_extract fp (l :: post) = none := by
      unfold verilator_extract
      rw [hnone]
    exact verilator_extract_append_none habort pre
  · intro l caps pre post hcaps hnum
    have hnone : veribleLineResult l = none := by
      unfold veribleLineResult
      rw [hcaps]
      rcases hnum with h | h | ⟨ec, hec, hp⟩
      · simp [h]
      · cases hl : parseU32 caps.line with
        | none => simp [hl]
        | some v => simp [hl, h]
      · have he : veribleEndcolResult caps = none := by
          simp [veribleEndcolResult, hec, hp]
        cases hl : parseU32 caps.line with
        | none => simp [hl]
        | some v =>
          cases hs : parseU32 caps.startcol with
          | none => simp [hl, hs]
          | some w => simp [hl, hs, he]
    have habort : verible_extract (l :: post) = none := by
      unfold verible_extract
      rw [hnone]
    exact verible_extract_append_none habort pre

/-- Witness for C3: a verilator line whose line number overflows `u32` and
a verible line whose captured end column is the empty numeral both wipe out
their runs. -/
theorem claim_c3_witness :
    verilator_extract "f.sv".data ["%Error: f.sv:4294967296:1: m".data] = none ∧
    verible_extract ["f.sv:1:2-: msg x".data] = none :=
  ⟨claim_c3.1 "f.sv".data "%Error: f.sv:4294967296:1: m".data
      ⟨"Error".data, none, "f.sv".data, "4294967296".data, some "1".data, "m".data⟩ [] []
      (by decide) (by decide) (Or.inl (by decide)),
   claim_c3.2 "f.sv:1:2-: msg x".data ⟨"1".data, "2".data, some [], "msg".data⟩ [] []
      (by decide) (Or.inr (Or.inr ⟨[], by decide, by decide⟩))⟩

/-- C4: a matched verilator line whose captured file path differs from the
checked file's path is discarded: it contributes nothing to the run, and
the run's result equals the result over the lines kept by the per-file
filter, so the returned list holds only diagnostics whose reported path
equals the checked file's path. -/
theorem claim_c4 :
    (∀ (fp l : List Char) (caps : VerilatorCaps) (ls : List (List Char)),
      verilatorCaptures l = some caps → caps.filepath ≠ fp →
      verilator_extract fp (l :: ls) = verilator_extract fp ls) ∧
    (∀ (fp : List Char) (ls : List (List Char)),
      verilator_extract fp ls =
        verilator_extract fp (ls.filter (verilatorKeepLine fp))) := by
  constructor
  · intro fp l caps ls hcaps hfp
    have hskip : verilatorLineResult fp l = some none := by
      unfold verilatorLineResult
      rw [hcaps]
      simp [hfp]
    conv_lhs => unfold verilator_extract
    rw [hskip]
  · intro fp ls
    induction ls with
    | nil => rfl
    | cons l ls ih =>
      cases hc : verilatorCaptures l with
      | none =>
        have hk : verilatorKeepLine fp l = true := by
          unfold verilatorKeepLine
          rw [hc]
        have hskip : verilatorLineResult fp l = some none := by
          unfold verilatorLineResult
          rw [hc]
        rw [List.filter_cons, hk]
        simp only [if_true]
        unfold verilator_extract
        rw [hskip]
        exact ih
      | some caps =>
        by_cases hfp : caps.filepath = fp
        · have hk : verilatorKeepLine fp l = true := by
            unfold verilatorKeepLine
            rw [hc]
            simp [hfp]
          rw [List.filter_cons, hk]
          simp only [if_true]
          unfold verilator_extract
          cases hl : verilatorLineResult fp l with
          | none => rfl
          | some o =>
            cases o with
            | none => exact ih
            | some d => rw [ih]
        · have hk : verilatorKeepLine fp l = false := by
            unfold verilatorKeepLine
            rw [hc]
            simp [hfp]
          have hskip : verilatorLineResult fp l = some none := by
            unfold verilatorLineResult
            rw [hc]
            simp [hfp]
          rw [List.filter_cons, hk]
          simp only [Bool.false_eq_true, if_false]
          conv_lhs => unfold verilator_extract
          rw [hskip]
          exact ih

/-- Witness for C4: a matched line reporting on an included file g.svh is
dropped from a run checking f.sv. -/
theorem claim_c4_witness :
    verilator_extract "f.sv".data ["%Error: g.svh:1:1: bad".data] =
      verilator_extract "f.sv".data [] :=
  claim_c4.1 "f.sv".data "%Error: g.svh:1:1: bad".data
    ⟨"Error".data, none, "g.svh".data, "1".data, some "1".data, "bad".data⟩ []
    (by decide) (by decide)

/-- C5: the verilator severity mapping sends the captured tag "Error" to
error severity, any tag beginning with "Warning" to warning severity, and
any other tag to informational severity; and every diagnostic produced by
the verible loops carries error severity. -/
theorem claim_c5 :
    verilator_severity "Error".data = some DiagnosticSeverity.ERROR ∧
    (∀ s : List Char, "Warning".data.isPrefixOf s = true →
      verilator_severity s = some DiagnosticSeverity.WARNING) ∧
    (∀ s : List Char, s ≠ "Error".data → "Warning".data.isPrefixOf s = false →
      verilator_severity s = some DiagnosticSeverity.INFORMATION) ∧
    (∀ (ls : List (List Char)) (ds : List Diagnostic),
      verible_extract ls = some ds →
      ∀ d ∈ ds, d.severity = some DiagnosticSeverity.ERROR) := by
  refine ⟨rfl, ?_, ?_, ?_⟩
  · intro s hw
    have hne : s ≠ "Error".data := by
      intro he
      subst he
      exact absurd hw (by decide)
    simp [verilator_severity, hne, hw]
  · intro s hne hw
    simp [verilator_severity, hne, hw]
  · intro ls ds h
    exact verible_extract_mem h

/-- Witness for C5 at concrete tags and a concrete verible run. -/
theorem claim_c5_witness :
    verilator_severity "Warning-WIDTH".data = some DiagnosticSeverity.WARNING ∧
    verilator_severity "Foo".data = some DiagnosticSeverity.INFORMATION ∧
    (⟨⟨⟨2, 1⟩, ⟨2, 1⟩⟩, some DiagnosticSeverity.ERROR, some "verible",
      "msg"⟩ : Diagnostic).severity = some DiagnosticSeverity.ERROR :=
  ⟨claim_c5.2.1 "Warning-WIDTH".data (by decide),
   claim_c5.2.2.1 "Foo".data (by decide) (by decide),
   claim_c5.2.2.2 ["f.sv:3:2: msg x".data]
     [⟨⟨⟨2, 1⟩, ⟨2, 1⟩⟩, some DiagnosticSeverity.ERROR, some "verible", "msg"⟩]
     (by decide) _ (by simp)⟩

/-- C6: a diagnostic produced from a captured line whose 1-based numeric
fields parse to values at least 1 carries exactly the decremented
(0-based) positions: for verilator the single position `(line-1, col-1)`,
for verible the start `(line-1, startcol-1)` and end
`(line-1, endcol-or-startcol - 1)`. -/
theorem claim_c6 :
    (∀ (fp l : List Char) (caps : VerilatorCaps) (ln c : Nat) (m : String)
      (ls : List (List Char)),
      verilatorCaptures l = some caps → caps.filepath = fp →
      parseU32 caps.line = some ln → 1 ≤ ln →
      parseU32 (caps.col.getD ['1']) = some c → 1 ≤ c →
      verilatorMsgOf (verilator_severity caps.severity) caps = some m →
      verilator_extract fp (l :: ls) = (verilator_extract fp ls).map
        (fun ds => ⟨⟨⟨ln - 1, c - 1⟩, ⟨ln - 1, c - 1⟩⟩,
          verilator_severity caps.severity, some "verilator", m⟩ :: ds)) ∧
    (∀ (l : List Char) (caps : VeribleCaps) (ln sc : Nat) (eo : Option Nat)
      (ls : List (List Char)),
      veribleMatchLine l = some caps →
      parseU32 caps.line = some ln → 1 ≤ ln →
      parseU32 caps.startcol = some sc → 1 ≤ sc →
      veribleEndcolResult caps = some eo → 1 ≤ eo.getD sc →
      verible_extract (l :: ls) = (verible_extract ls).map
        (fun ds => ⟨⟨⟨ln - 1, sc - 1⟩, ⟨ln - 1, eo.getD sc - 1⟩⟩,
          some DiagnosticSeverity.ERROR, some "verible", ⟨caps.message⟩⟩ :: ds)) := by
  constructor
  · intro fp l caps ln c m ls hcaps hfp hln h1 hc h2 hm
    have hlr : verilatorLineResult fp l = some (some
        ⟨⟨⟨ln - 1, c - 1⟩, ⟨ln - 1, c - 1⟩⟩,
          verilator_severity caps.severity, some "verilator", m⟩) := by
      unfold verilatorLineResult
      rw [hcaps]
      simp [hfp, hln, hc, hm, u32sub1_eq h1 (parseU32_lt hln),
        u32sub1_eq h2 (parseU32_lt hc)]
    conv_lhs => unfold verilator_extract
    rw [hlr]
  · intro l caps ln sc eo ls hcaps hln h1 hsc h2 heo h3
    have hlt : eo.getD sc < 4294967296 := by
      cases eo with
      | none => simpa using parseU32_lt hsc
      | some e => simpa using veribleEndcolResult_lt heo
    have hlr : veribleLineResult l = some
        ⟨⟨⟨ln - 1, sc - 1⟩, ⟨ln - 1, eo.getD sc - 1⟩⟩,
          some DiagnosticSeverity.ERROR, some "verible", ⟨caps.message⟩⟩ := by
      unfold veribleLineResult
      rw [hcaps]
      simp [hln, hsc, heo, u32sub1_eq h1 (parseU32_lt hln),
        u32sub1_eq h2 (parseU32_lt hsc), u32sub1_eq h3 hlt]
    conv_lhs => unfold verible_extract
    rw [hlr]

/-- Witness for C6 at concrete lines: verilator line 3 column 5 becomes
position (2,4); verible line 6 columns 1-9 becomes range (5,0)-(5,8). -/
theorem claim_c6_witness :
    verilator_extract "f.sv".data ["%Error: f.sv:3:5: boom".data] =
      (verilator_extract "f.sv".data []).map
        (fun ds => ⟨⟨⟨2, 4⟩, ⟨2, 4⟩⟩, verilator_severity "Error".data,
          some "verilator", "boom"⟩ :: ds) ∧
    verible_extract ["f.sv:6:1-9: syntax error at token endmodule".data] =
      (verible_extract []).map
        (fun ds => ⟨⟨⟨5, 0⟩, ⟨5, 8⟩⟩, some DiagnosticSeverity.ERROR,
          some "verible", "syntax error at token"⟩ :: ds) :=
  ⟨claim_c6.1 "f.sv".data "%Error: f.sv:3:5: boom".data
     ⟨"Error".data, none, "f.sv".data, "3".data, some "5".data, "boom".data⟩
     3 5 "boom" [] (by decide) (by decide) (by decide) (by decide) (by decide)
     (by decide) (by decide),
   claim_c6.2 "f.sv:6:1-9: syntax error at token endmodule".data
     ⟨"6".data, "1".data, some "9".data, "syntax error at token".data⟩
     6 1 (some 9) [] (by decide) (by decide) (by decide) (by decide) (by decide)
     (by decide) (by decide)⟩

/-- C7: when the executable locator fails for a tool's configured path, the
startup resolution forces that tool's enabled flag to false regardless of
its configured value, and any tool whose enabled flag is false contributes
the empty diagnostic list for every file and every run. -/
theorem claim_c7 :
    (∀ (located : String → Bool) (conf : ProjectConfig),
      located conf.verilator.path = false →
      (resolveToolEnablement located conf).verilator.enabled = false) ∧
    (∀ (located : String → Bool) (conf : ProjectConfig),
      located conf.verible_lint.path = false →
      (resolveToolEnablement located conf).verible_lint.enabled = false) ∧
    (∀ (conf : DiagProjectConfig) (path : Option (List Char)) (s : Bool)
      (out : List Char), conf.verilatorSyn.enabled = false →
      verilatorContribution conf path s out = []) ∧
    (∀ (conf : DiagProjectConfig) (s : Bool) (out : List Char),
      conf.veribleSyn.enabled = false →
      veribleSyntaxContribution conf s out = []) ∧
    (∀ (conf : DiagProjectConfig) (path : Option (List Char)) (s : Bool)
      (out : List Char), conf.veribleLint.enabled = false →
      veribleLintContribution conf path s out = []) := by
  refine ⟨?_, ?_, ?_, ?_, ?_⟩
  · intro located conf h
    simp [resolveToolEnablement, h]
  · intro located conf h
    simp [resolveToolEnablement, h]
  · intro conf path s out h
    simp [verilatorContribution, h]
  · intro conf s out h
    simp [veribleSyntaxContribution, h]
  · intro conf path s out h
    simp [veribleLintContribution, h]

/-- Witness for C7: with a locator that finds nothing, a configuration
that enables both tools resolves both flags to false, and a disabled tool
section contributes nothing. -/
theorem claim_c7_witness :
    (resolveToolEnablement (fun _ => false)
      ⟨⟨true, "verible-verilog-lint", []⟩, ⟨true, "verilator", []⟩⟩).verilator.enabled
      = false ∧
    (resolveToolEnablement (fun _ => false)
      ⟨⟨true, "verible-verilog-lint", []⟩, ⟨true, "verilator", []⟩⟩).verible_lint.enabled
      = false ∧
    verilatorContribution ⟨⟨false, "verilator", []⟩, ⟨true, "x", []⟩, ⟨true, "y", []⟩⟩
      (some "f.sv".data) false "%Error: f.sv:2:3: boom".data = [] :=
  ⟨claim_c7.1 (fun _ => false)
     ⟨⟨true, "verible-verilog-lint", []⟩, ⟨true, "verilator", []⟩⟩ rfl,
   claim_c7.2.1 (fun _ => false)
     ⟨⟨true, "verible-verilog-lint", []⟩, ⟨true, "verilator", []⟩⟩ rfl,
   claim_c7.2.2.1 ⟨⟨false, "verilator", []⟩, ⟨true, "x", []⟩, ⟨true, "y", []⟩⟩
     (some "f.sv".data) false "%Error: f.sv:2:3: boom".data rfl⟩

/-- C8 counterexample: the claim that every accepted line carries numerals
of value at least 1 is false — both patterns accept the numeral 0, and on
such a line the subtract-one conversion wraps the unsigned value to
`2^32 - 1`, as the full verilator pipeline shows. -/
theorem claim_c8_counterexample :
    verilatorCaptures "%Error: f.sv:0:1: bad x".data =
      some ⟨"Error".data, none, "f.sv".data, "0".data, some "1".data, "bad x".data⟩ ∧
    veribleMatchLine "f.sv:0:1: m x".data =
      some ⟨"0".data, "1".data, none, "m".data⟩ ∧
    parseU32 "0".data = some 0 ∧
    ¬ 1 ≤ 0 ∧
    u32sub1 0 = 4294967295 ∧
    verilator_extract "f.sv".data ["%Error: f.sv:0:1: bad x".data] =
      some [⟨⟨⟨4294967295, 0⟩, ⟨4294967295, 0⟩⟩, some DiagnosticSeverity.ERROR,
        some "verilator", "bad x"⟩] := by
  decide

/-- C8 (amended): the subtract-one conversion is exact (no wrap) for every
accepted numeral that parses to a value of at least 1; the patterns also
accept the numeral 0, for which the unsigned subtraction wraps instead. -/
theorem claim_c8_amended (s : List Char) (v : Nat) (h : parseU32 s = some v)
    (h1 : 1 ≤ v) : u32sub1 v = v - 1 ∧ v - 1 < 4294967296 := by
  have hlt := parseU32_lt h
  exact ⟨u32sub1_eq h1 hlt, by omega⟩

/-- Witness for C8 (amended) at the numeral 3. -/
theorem claim_c8_witness : u32sub1 3 = 3 - 1 ∧ 3 - 1 < 4294967296 :=
  claim_c8_amended "3".data 3 (by decide) (by decide)

/-- C9 counterexample: a matched line with a "Warning" tag and no warning
code whose reported path differs from the checked file is skipped at the
per-file filter before the message computation, so the run is not aborted:
here it still returns the diagnostic from the other line. -/
theorem claim_c9_counterexample :
    verilatorCaptures "%Warning: g.sv:1:1: m".data =
      some ⟨"Warning".data, none, "g.sv".data, "1".data, some "1".data, "m".data⟩ ∧
    verilator_syntax "f.sv".data false
        "%Warning: g.sv:1:1: m\n%Error: f.sv:2:3: boom\n".data =
      some [⟨⟨⟨1, 2⟩, ⟨1, 2⟩⟩, some DiagnosticSeverity.ERROR,
        some "verilator", "boom"⟩] := by
  decide

/-- C9 (amended): a matched verilator line that carries a "Warning"
severity tag without a warning-type code and whose captured file path
equals the checked file's path aborts extraction for the whole run, which
then yields no diagnostics at all. -/
theorem claim_c9_amended (fp l : List Char) (caps : VerilatorCaps)
    (pre post : List (List Char)) (hcaps : verilatorCaptures l = some caps)
    (hfp : caps.filepath = fp) (hsev : caps.severity = "Warning".data)
    (hwt : caps.warning_type = none) :
    verilator_extract fp (pre ++ l :: post) = none := by
  have hsev2 : verilator_severity caps.severity = some DiagnosticSeverity.WARNING := by
    rw [hsev]
    decide
  have hmsg : verilatorMsgOf (verilator_severity caps.severity) caps = none := by
    simp [verilatorMsgOf, hsev2, hwt]
  have hnone : verilatorLineResult fp l = none := by
    unfold verilatorLineResult
    rw [hcaps]
    cases hl : parseU32 caps.line with
    | none => simp [hfp, hl]
    | some v =>
      cases hc : parseU32 (caps.col.getD ['1']) with
      | none => simp [hfp, hl, hc]
      | some c => simp [hfp, hl, hc, hmsg]
  have habort : verilator_extract fp (l :: post) = none := by
    unfold verilator_extract
    rw [hnone]
  exact verilator_extract_append_none habort pre

/-- Witness for C9 (amended): a code-less warning on the checked file wipes
out the run. -/
theorem claim_c9_witness :
    verilator_extract "f.sv".data ["%Warning: f.sv:1:1: m".data] = none :=
  claim_c9_amended "f.sv".data "%Warning: f.sv:1:1: m".data
    ⟨"Warning".data, none, "f.sv".data, "1".data, some "1".data, "m".data⟩ [] []
    (by decide) (by decide) (by decide) (by decide)

/-- C10: every diagnostic produced from verilator output has a zero-width
range (start equals end), and a matched line without a column capture
defaults the 1-based column to 1, so the produced position's character is
0. -/
theorem claim_c10 :
    (∀ (fp : List Char) (ls : List (List Char)) (ds : List Diagnostic),
      verilator_extract fp ls = some ds →
      ∀ d ∈ ds, d.range.start = d.range.stop) ∧
    (∀ (fp l : List Char) (caps : VerilatorCaps) (ln : Nat) (m : String)
      (ls : List (List Char)),
      verilatorCaptures l = some caps → caps.filepath = fp → caps.col = none →
      parseU32 caps.line = some ln →
      verilatorMsgOf (verilator_severity caps.severity) caps = some m →
      verilator_extract fp (l :: ls) = (verilator_extract fp ls).map
        (fun ds => ⟨⟨⟨u32sub1 ln, 0⟩, ⟨u32sub1 ln, 0⟩⟩,
          verilator_severity caps.severity, some "verilator", m⟩ :: ds)) := by
  constructor
  · intro fp ls ds h
    exact verilator_extract_mem h
  · intro fp l caps ln m ls hcaps hfp hcol hln hm
    have hc : parseU32 (caps.col.getD ['1']) = some 1 := by
      rw [hcol]
      decide
    have hlr : verilatorLineResult fp l = some (some
        ⟨⟨⟨u32sub1 ln, 0⟩, ⟨u32sub1 ln, 0⟩⟩,
          verilator_severity caps.severity, some "verilator", m⟩) := by
      unfold verilatorLineResult
      rw [hcaps]
      simp [hfp, hln, hc, hm, (by decide : u32sub1 1 = 0)]
    conv_lhs => unfold verilator_extract
    rw [hlr]

/-- Witness for C10: a column-less warning line produces a zero-width
range at character 0. -/
theorem claim_c10_witness :
    (⟨⟨⟨3, 0⟩, ⟨3, 0⟩⟩, some DiagnosticSeverity.WARNING, some "verilator",
      "WIDTH: oops"⟩ : Diagnostic).range.start =
      (⟨⟨⟨3, 0⟩, ⟨3, 0⟩⟩, some DiagnosticSeverity.WARNING, some "verilator",
        "WIDTH: oops"⟩ : Diagnostic).range.stop ∧
    verilator_extract "f.sv".data ["%Warning-WIDTH: f.sv:4: oops".data] =
      (verilator_extract "f.sv".data []).map
        (fun ds => ⟨⟨⟨u32sub1 4, 0⟩, ⟨u32sub1 4, 0⟩⟩,
          verilator_severity "Warning".data, some "verilator",
          "WIDTH: oops"⟩ :: ds) :=
  ⟨claim_c10.1 "f.sv".data ["%Warning-WIDTH: f.sv:4: oops".data]
     [⟨⟨⟨3, 0⟩, ⟨3, 0⟩⟩, some DiagnosticSeverity.WARNING, some "verilator",
       "WIDTH: oops"⟩] (by decide) _ (by simp),
   claim_c10.2 "f.sv".data "%Warning-WIDTH: f.sv:4: oops".data
     ⟨"Warning".data, some "WIDTH".data, "f.sv".data, "4".data, none, "oops".data⟩
     4 "WIDTH: oops" [] (by decide) (by decide) (by decide) (by decide) (by decide)⟩

end Veridian
